import Mathlib

/-!
Verification of the Outreach-Agent discovery/normalization pipeline.

This file gives a shallow embedding of the core of the repository:

* the raw-record data model (Python dicts, modelled as insertion-ordered
  association lists, matching Python 3.7+ dict semantics),
* the pydantic validation layer of `src/models/schemas.py`
  (`ApifyProspect` with `str_strip_whitespace`, the `email` and
  `linkedin_url` validators, and the derived accessors),
* the row projections `to_prospect_row` / `to_company_row`,
* the query builder `ApifyClient.build_apollo_search_url` of
  `src/clients/apify_client.py`, and
* the orchestration loop `DiscoveryFlow.run` /
  `DiscoveryFlow._process_records_with_progress` of
  `src/app_logic/discovery_flow.py`.

Modelling conventions:

* `uuid.uuid4()` is modelled as an injective fresh-identifier supply: a
  natural-number counter threaded through the computation, one draw per
  call.  The only property of uuid4 the code relies on is freshness of
  each draw.
* `datetime.now().isoformat()` is modelled as an ambient constant string
  (timestamps never influence control flow).
* The two external collaborators (the Apify fetch and the two Google
  Sheets batch writes) are parameters returning `Except String _`; an
  `Except.error` models the collaborator raising.
* Python string operations are modelled over ASCII data: `str.lower` as
  an ASCII case map, `str.strip` as removal of leading/trailing ASCII
  whitespace.  All data handled by the claims is ASCII.
* Raising an exception is modelled by `Except.error` carrying `str(e)`;
  the orchestrator's state at the moment of the raise is made explicit
  by state passing.
-/

/-- A Python value stored in a raw scraper record. -/
inductive PyVal where
  | str : String → PyVal
  | int : Int → PyVal
  | dict : List (String × PyVal) → PyVal

/-- A raw record is a Python dict: an insertion-ordered association list
with unique keys (Python 3.7+ semantics). -/
abbrev RawRecord := List (String × PyVal)

/-- Dict read: value of the first (unique) matching key. -/
def lookupKey : RawRecord → String → Option PyVal
  | [], _ => none
  | (k', v) :: rest, k => if k' = k then some v else lookupKey rest k

/-- Dict assignment `d[k] = v`: replaces in place if the key exists,
otherwise appends at the end (Python dicts preserve insertion order and
keep the position of an updated key). -/
def setKey : RawRecord → String → PyVal → RawRecord
  | [], k, v => [(k, v)]
  | (k', v') :: rest, k, v =>
    if k' = k then (k, v) :: rest else (k', v') :: setKey rest k v

/-- Read a string-valued field. -/
def getStr (r : RawRecord) (k : String) : Option String :=
  match lookupKey r k with
  | some (.str s) => some s
  | _ => none

/-- Read an integer-valued field. -/
def getInt (r : RawRecord) (k : String) : Option Int :=
  match lookupKey r k with
  | some (.int n) => some n
  | _ => none

/-- Read a dict-valued field. -/
def getDict (r : RawRecord) (k : String) : Option RawRecord :=
  match lookupKey r k with
  | some (.dict d) => some d
  | _ => none

/-- ASCII whitespace stripped by Python `str.strip()` (the pipeline's
data is ASCII; the additional Unicode spaces Python also strips are not
modelled). -/
def isPySpace (c : Char) : Bool :=
  c = ' ' || c = '\t' || c = '\n' || c = '\r' || c = '\x0b' || c = '\x0c'

/-- Remove trailing whitespace from a character list. -/
def dropTrailingSpaces (l : List Char) : List Char :=
  (l.reverse.dropWhile isPySpace).reverse

/-- Remove leading and trailing whitespace from a character list. -/
def stripL (l : List Char) : List Char :=
  dropTrailingSpaces (l.dropWhile isPySpace)

/-- Python `str.strip()`: remove leading and trailing whitespace. -/
def pyStrip (s : String) : String := ⟨stripL s.data⟩

/-- ASCII lowercasing of one character, as Python `str.lower()` does on
the ASCII range. -/
def pyLowerChar (c : Char) : Char :=
  match c with
  | 'A' => 'a' | 'B' => 'b' | 'C' => 'c' | 'D' => 'd' | 'E' => 'e'
  | 'F' => 'f' | 'G' => 'g' | 'H' => 'h' | 'I' => 'i' | 'J' => 'j'
  | 'K' => 'k' | 'L' => 'l' | 'M' => 'm' | 'N' => 'n' | 'O' => 'o'
  | 'P' => 'p' | 'Q' => 'q' | 'R' => 'r' | 'S' => 's' | 'T' => 't'
  | 'U' => 'u' | 'V' => 'v' | 'W' => 'w' | 'X' => 'x' | 'Y' => 'y'
  | 'Z' => 'z'
  | c => c

/-- Python `str.lower()` on ASCII data. -/
def pyLower (s : String) : String := ⟨s.data.map pyLowerChar⟩

/-- Python `str.startswith(pre)`. -/
def pyStartsWith (s pre : String) : Bool := pre.data.isPrefixOf s.data

/-- Python `str.replace(pat, rep)` on character lists: replace every
non-overlapping occurrence, scanning left to right.  (The code only
calls it with non-empty patterns.)  Recursion is driven by a fuel
counter so that the definition is structural; one unit of fuel is spent
per consumed character or match, so fuel equal to the input length
always suffices. -/
def replaceAllFuel (pat rep : List Char) : Nat → List Char → List Char
  | 0, l => l
  | _ + 1, [] => []
  | fuel + 1, c :: rest =>
    if pat ≠ [] ∧ pat.isPrefixOf (c :: rest) = true then
      rep ++ replaceAllFuel pat rep fuel (rest.drop (pat.length - 1))
    else
      c :: replaceAllFuel pat rep fuel rest

/-- Python `str.replace`: run the scan with enough fuel for the whole
input. -/
def replaceAllL (pat rep l : List Char) : List Char :=
  replaceAllFuel pat rep l.length l

/-- Python `str.replace` lifted to `String`. -/
def pyReplace (s pat rep : String) : String :=
  ⟨replaceAllL pat.data rep.data s.data⟩

/-- Python `str.rstrip(sl)` for a slash: drop every trailing slash. -/
def pyRstripSlash (s : String) : String :=
  ⟨(s.data.reverse.dropWhile (fun c => c = '/')).reverse⟩

/-- ASCII character classes of the email regex
`[a-zA-Z0-9._%+-]+@[a-zA-Z0-9.-]+\.[a-zA-Z]\x7b2,\x7d`. -/
def isAsciiAlpha (c : Char) : Bool :=
  ('A' ≤ c && c ≤ 'Z') || ('a' ≤ c && c ≤ 'z')

/-- ASCII digit. -/
def isAsciiDigit (c : Char) : Bool := '0' ≤ c && c ≤ '9'

/-- Character class of the local part of the email regex. -/
def isLocalChar (c : Char) : Bool :=
  isAsciiAlpha c || isAsciiDigit c || c = '.' || c = '_' || c = '%' ||
    c = '+' || c = '-'

/-- Character class of the domain part of the email regex. -/
def isDomainChar (c : Char) : Bool :=
  isAsciiAlpha c || isAsciiDigit c || c = '.' || c = '-'

/-- Anchored match of the email regex against a character list.  The
regex matches iff the input splits as local part, at sign, domain, dot,
tld, with a non-empty all-local-class local part, a non-empty
all-domain-class domain, and an all-alphabetic tld of length at least
two.  Since the local class excludes the at sign and the tld is
alphabetic, the split points are forced: the local part is the maximal
local-class preamble and the tld is the maximal alphabetic suffix,
which is what this decision procedure inspects. -/
def emailMatchL (cs : List Char) : Bool :=
  let l := cs.takeWhile isLocalChar
  let rest := cs.drop l.length
  let r := rest.drop 1
  let t := r.reverse.takeWhile isAsciiAlpha
  let d := r.reverse.drop t.length
  decide (l ≠ []) && decide (rest.head? = some '@') &&
    decide (2 ≤ t.length) && decide (d.head? = some '.') &&
    decide (d.drop 1 ≠ []) && (d.drop 1).all isDomainChar

/-- Python `re.match` of the anchored email pattern: the trailing
anchor also accepts one final newline. -/
def reMatchEmail (s : String) : Bool :=
  emailMatchL s.data ||
    (match s.data.getLast? with
     | some c => c = '\n' && emailMatchL s.data.dropLast
     | none => false)

/-- The `email` field pipeline of `ApifyProspect`: the model config
strips whitespace, then `validate_email` rejects a value failing the
regex and returns `v.lower().strip()`. -/
def emailFieldResult (v : String) : Except String String :=
  let s := pyStrip v
  if reMatchEmail s = true then .ok (pyStrip (pyLower s))
  else .error "Value error, Invalid email format"

/-- The `validate_linkedin_url` validator: a truthy value lacking an
`http://` or `https://` scheme is prefixed with `https://`. -/
def fixLinkedInUrl (v : String) : String :=
  if v ≠ "" ∧ pyStartsWith v "http://" = false ∧
      pyStartsWith v "https://" = false then
    "https://" ++ v
  else v

/-- The validated entity: `ApifyProspect` after pydantic validation. -/
structure Prospect where
  first_name : String
  last_name : String
  email : String
  organization_name : String
  title : Option String
  headline : Option String
  linkedin_url : Option String
  organization_website_url : Option String
  industry : Option String
  estimated_num_employees : Option String
  city : Option String
  state : Option String
  country : Option String
  organization_short_description : Option String
  organization_seo_description : Option String
  keywords : Option String
  organization_linkedin_url : Option String
  organization_founded_year : Option Int
  organization_annual_revenue_printed : Option String
  raw_data : Option RawRecord

/-- An optional string field: read and strip (`str_strip_whitespace`). -/
def optStrField (r : RawRecord) (k : String) : Option String :=
  (getStr r k).map pyStrip

/-- Structured field errors of a failed validation, in field declaration
order (pydantic reports every failing field). -/
def requiredFieldErrors (r : RawRecord) : List String :=
  (match (getStr r "first_name").map pyStrip with
   | none => ["first_name: Field required"]
   | some s =>
     if s = "" then ["first_name: String should have at least 1 character"]
     else [])
  ++ (match (getStr r "last_name").map pyStrip with
      | none => ["last_name: Field required"]
      | some s =>
        if s = "" then ["last_name: String should have at least 1 character"]
        else [])
  ++ (match (getStr r "email").map pyStrip with
      | none => ["email: Field required"]
      | some s =>
        if reMatchEmail s = true then []
        else ["email: Value error, Invalid email format"])
  ++ (match (getStr r "organization_name").map pyStrip with
      | none => ["organization_name: Field required"]
      | some s =>
        if s = "" then
          ["organization_name: String should have at least 1 character"]
        else [])

/-- Pydantic validation of one raw record into an `ApifyProspect`:
required fields present and non-empty after stripping, email matching
the regex and normalized, LinkedIn URL coerced, every extra field
tolerated. -/
def validateProspect (r : RawRecord) : Except (List String) Prospect :=
  match getStr r "first_name", getStr r "last_name", getStr r "email",
        getStr r "organization_name" with
  | some fn0, some ln0, some em0, some org0 =>
    match emailFieldResult em0 with
    | .ok em =>
      if pyStrip fn0 ≠ "" ∧ pyStrip ln0 ≠ "" ∧ pyStrip org0 ≠ "" then
        .ok { first_name := pyStrip fn0
              last_name := pyStrip ln0
              email := em
              organization_name := pyStrip org0
              title := optStrField r "title"
              headline := optStrField r "headline"
              linkedin_url := (optStrField r "linkedin_url").map fixLinkedInUrl
              organization_website_url := optStrField r "organization_website_url"
              industry := optStrField r "industry"
              estimated_num_employees := optStrField r "estimated_num_employees"
              city := optStrField r "city"
              state := optStrField r "state"
              country := optStrField r "country"
              organization_short_description :=
                optStrField r "organization_short_description"
              organization_seo_description :=
                optStrField r "organization_seo_description"
              keywords := optStrField r "keywords"
              organization_linkedin_url :=
                optStrField r "organization_linkedin_url"
              organization_founded_year := getInt r "organization_founded_year"
              organization_annual_revenue_printed :=
                optStrField r "organization_annual_revenue_printed"
              raw_data := getDict r "raw_data" }
      else .error (requiredFieldErrors r)
    | .error _ => .error (requiredFieldErrors r)
  | _, _, _, _ => .error (requiredFieldErrors r)

/-- Python `x or y` on optional strings: the first truthy operand. -/
def pyOr : Option String → Option String → Option String
  | some s, b => if s = "" then b else some s
  | none, b => b

/-- Python `x or d` with a string default. -/
def pyOrStr (a : Option String) (d : String) : String :=
  match a with
  | some s => if s = "" then d else s
  | none => d

/-- The `effective_title` property: `title or headline`. -/
def effectiveTitle (e : Prospect) : Option String := pyOr e.title e.headline

/-- The `company_domain` property: strip scheme markers and `www.`
(every occurrence, per `str.replace`), then every trailing slash. -/
def companyDomain (e : Prospect) : Option String :=
  match e.organization_website_url with
  | some u =>
    if u ≠ "" then
      some (pyRstripSlash
        (pyReplace (pyReplace (pyReplace u "http://" "") "https://" "") "www." ""))
    else none
  | none => none

/-- The `location` property: truthy city/state/country joined with a
comma, `None` when all are absent. -/
def locationOf (e : Prospect) : Option String :=
  let parts := [e.city, e.state, e.country].filterMap
    (fun o => match o with
      | some s => if s = "" then none else some s
      | none => none)
  if parts = [] then none else some (String.intercalate ", " parts)

/-- A normalized Prospects worksheet row (`to_prospect_row` output).
Identifiers are fresh-counter draws modelling `uuid.uuid4()`. -/
structure ProspectRow where
  id : Nat
  first_name : String
  last_name : String
  email : String
  company_id : Nat
  title : String
  linkedin_url : String
  phase : String
  created_at : String
  updated_at : String
deriving DecidableEq

/-- A normalized Companies worksheet row (`to_company_row` output). -/
structure CompanyRow where
  id : Nat
  name : String
  domain : String
  industry : String
  size : String
  location : String
  description : String
  created_at : String
deriving DecidableEq

/-- The `to_prospect_row` projection: draws a fresh prospect id and a
fresh placeholder company id (two uuid4 calls, in that order) and
returns the next counter state. -/
def toProspectRow (e : Prospect) (g : Nat) (now : String) : ProspectRow × Nat :=
  ({ id := g
     first_name := e.first_name
     last_name := e.last_name
     email := e.email
     company_id := g + 1
     title := pyOrStr (effectiveTitle e) ""
     linkedin_url := pyOrStr e.linkedin_url ""
     phase := "discovered"
     created_at := now
     updated_at := now }, g + 2)

/-- The `to_company_row` projection: draws one fresh company id. -/
def toCompanyRow (e : Prospect) (g : Nat) (now : String) : CompanyRow × Nat :=
  ({ id := g
     name := e.organization_name
     domain := pyOrStr (companyDomain e) ""
     industry := pyOrStr e.industry ""
     size := pyOrStr e.estimated_num_employees ""
     location := pyOrStr (locationOf e) ""
     description := ""
     created_at := now }, g + 1)

/-- Aggregate statistics of one orchestration run (the `results` dict
of `DiscoveryFlow.run`). -/
structure RunResult where
  total_requested : Nat
  raw_records_fetched : Nat
  valid_prospects : Nat
  invalid_prospects : Nat
  prospects_inserted : Nat
  companies_inserted : Nat
  errors : List String
deriving DecidableEq

/-- The initial `results` dict built at the top of `run`. -/
def initResults (total : Nat) : RunResult :=
  { total_requested := total
    raw_records_fetched := 0
    valid_prospects := 0
    invalid_prospects := 0
    prospects_inserted := 0
    companies_inserted := 0
    errors := [] }

/-- Mutable state of the per-record processing loop
(`_process_records_with_progress`): output batches, the deduplication
set of normalized company names, the statistics dict, and the fresh-id
counter. -/
structure ProcState where
  prospects : List ProspectRow
  companies : List CompanyRow
  seen : List String
  res : RunResult
  gen : Nat
deriving DecidableEq

/-- The record mutation performed at the top of the loop body:
`raw_record["raw_data"] = raw_record.copy()`. -/
def mutateRecord (r : RawRecord) : RawRecord :=
  setKey r "raw_data" (PyVal.dict r)

/-- One iteration of the processing loop: mutate the record, validate,
project both rows, deduplicate the company by normalized name, and
overwrite the prospect's company id with the id of this record's
freshly generated company row.  A pydantic `ValidationError` only
increments the invalid count (the error list is untouched); no other
exception can arise in the loop body, so the generic handler that
appends to the error list is unreachable. -/
def processStep (now : String) (s : ProcState) (r : RawRecord) :
    RawRecord × ProcState :=
  let r' := mutateRecord r
  match validateProspect r' with
  | .ok p =>
    let pr := toProspectRow p s.gen now
    let cr := toCompanyRow p pr.2 now
    let key := pyStrip (pyLower cr.1.name)
    (r',
     { prospects := s.prospects ++ [{ pr.1 with company_id := cr.1.id }]
       companies := if key ∈ s.seen then s.companies else s.companies ++ [cr.1]
       seen := if key ∈ s.seen then s.seen else s.seen ++ [key]
       res := { s.res with valid_prospects := s.res.valid_prospects + 1 }
       gen := cr.2 })
  | .error _ =>
    (r',
     { s with
       res := { s.res with invalid_prospects := s.res.invalid_prospects + 1 } })

/-- The processing loop over the fetched batch, in arrival order.  The
first component is the caller-visible batch after the loop's in-place
mutations. -/
def processRecords (now : String) :
    List RawRecord → ProcState → List RawRecord × ProcState
  | [], s => ([], s)
  | r :: rs, s =>
    let p := processStep now s r
    let q := processRecords now rs p.2
    (p.1 :: q.1, q.2)

/-- The initial loop state. -/
def initProc (res : RunResult) (g : Nat) : ProcState :=
  { prospects := [], companies := [], seen := [], res := res, gen := g }

/-- Target criteria for the Apollo search (`targets` dict).  A field of
`none` models an absent key; `targets.get` then supplies the default. -/
structure Targets where
  company_size : Option String := none
  industry : Option String := none
  location : Option String := none
  job_titles : Option (List String) := none

/-- The parameter list assembled by `build_apollo_search_url`: one
parameter per truthy criterion, one parameter per job title. -/
def urlParams (t : Targets) : List String :=
  let company_size := t.company_size.getD "1-50"
  let industry := t.industry.getD "Technology"
  let location := t.location.getD "United States"
  let job_titles := t.job_titles.getD ["CEO", "Founder", "CTO"]
  (if company_size ≠ "" then
    ["organizationNumEmployeesRanges[]=" ++ company_size] else [])
  ++ (if industry ≠ "" then
    ["qOrganizationKeywordTags[]=" ++ industry] else [])
  ++ (if location ≠ "" then ["personLocations[]=" ++ location] else [])
  ++ (if job_titles ≠ [] then
    job_titles.map (fun ti => "personTitles[]=" ++ ti) else [])

/-- `ApifyClient.build_apollo_search_url`. -/
def buildApolloSearchUrl (t : Targets) : String :=
  if urlParams t ≠ [] then
    "https://app.apollo.io/#/people" ++ "?" ++
      String.intercalate "&" (urlParams t)
  else "https://app.apollo.io/#/people"

/-- The message of the `ZeroDivisionError` raised by the success-rate
computation of `_display_success_results` when no records were
fetched. -/
def zeroDivMsg : String := "division by zero"

/-- Steps 4 and 5 of the `try` block: the two guarded batch writes
(`if prospects_data:` / `if companies_data:`), each surfacing its
failure together with the statistics accumulated so far, followed by
the success display whose success-rate computation divides by
`raw_records_fetched`. -/
def persistStage (appendProspects : List ProspectRow → Except String Unit)
    (appendCompanies : List CompanyRow → Except String Unit)
    (st : ProcState) : Except (String × RunResult) RunResult :=
  let step3 : Except (String × RunResult) RunResult :=
    if st.prospects.isEmpty then .ok st.res
    else
      match appendProspects st.prospects with
      | .error e => .error (e, st.res)
      | .ok _ =>
        .ok { st.res with prospects_inserted := st.prospects.length }
  match step3 with
  | .error er => .error er
  | .ok res3 =>
    let step4 : Except (String × RunResult) RunResult :=
      if st.companies.isEmpty then .ok res3
      else
        match appendCompanies st.companies with
        | .error e => .error (e, res3)
        | .ok _ =>
          .ok { res3 with companies_inserted := st.companies.length }
    match step4 with
    | .error er => .error er
    | .ok res4 =>
      if res4.raw_records_fetched = 0 then .error (zeroDivMsg, res4)
      else .ok res4

/-- The body of `DiscoveryFlow.run` inside its `try` block.  An
`Except.error` carries `str(e)` together with the state of the
`results` dict at the moment of the raise.  The fetch collaborator and
the two batch writes are parameters. -/
def runInner (total : Nat) (t : Targets)
    (fetch : Except String (List RawRecord))
    (appendProspects : List ProspectRow → Except String Unit)
    (appendCompanies : List CompanyRow → Except String Unit)
    (g : Nat) (now : String) : Except (String × RunResult) RunResult :=
  let res0 := initResults total
  let _ := buildApolloSearchUrl t
  match fetch with
  | .error e => .error (e, res0)
  | .ok raw =>
    persistStage appendProspects appendCompanies
      (processRecords now raw
        (initProc { res0 with raw_records_fetched := raw.length } g)).2

/-- `DiscoveryFlow.run`: the `except` handler appends `str(e)` to the
error list of the `results` dict and re-raises. -/
def runFlow (total : Nat) (t : Targets)
    (fetch : Except String (List RawRecord))
    (appendProspects : List ProspectRow → Except String Unit)
    (appendCompanies : List CompanyRow → Except String Unit)
    (g : Nat) (now : String) : Except (String × RunResult) RunResult :=
  match runInner total t fetch appendProspects appendCompanies g now with
  | .ok r => .ok r
  | .error (e, r) => .error (e, { r with errors := r.errors ++ [e] })

deriving instance DecidableEq for Except

/-! Character-level facts about the ASCII lowercasing map. -/

/-- Either a character is fixed by lowercasing, or its image is a
lowercase letter. -/
theorem pyLowerChar_cases (c : Char) :
    pyLowerChar c = c ∨ ('a' ≤ pyLowerChar c ∧ pyLowerChar c ≤ 'z') := by
  unfold pyLowerChar
  split <;> first | exact Or.inl rfl | exact Or.inr (by decide)

/-- A character outside the uppercase range is fixed by lowercasing. -/
theorem pyLowerChar_not_upper {c : Char} (h : ¬ ('A' ≤ c ∧ c ≤ 'Z')) :
    pyLowerChar c = c := by
  unfold pyLowerChar
  split <;> first | rfl | exact absurd (by decide) h

/-- Lowercasing a character is idempotent. -/
theorem pyLowerChar_idem (c : Char) :
    pyLowerChar (pyLowerChar c) = pyLowerChar c := by
  rcases pyLowerChar_cases c with h | h
  · rw [h, h]
  · exact pyLowerChar_not_upper
      (fun hc => absurd (le_trans h.1 hc.2) (by decide))

/-- Lowercasing preserves whitespace-ness. -/
theorem isPySpace_pyLowerChar (c : Char) :
    isPySpace (pyLowerChar c) = isPySpace c := by
  unfold pyLowerChar
  split <;> rfl

/-- Lowercasing preserves the local-part character class. -/
theorem isLocalChar_pyLowerChar (c : Char) :
    isLocalChar (pyLowerChar c) = isLocalChar c := by
  unfold pyLowerChar
  split <;> rfl

/-- Lowercasing preserves ASCII-letter-ness. -/
theorem isAsciiAlpha_pyLowerChar (c : Char) :
    isAsciiAlpha (pyLowerChar c) = isAsciiAlpha c := by
  unfold pyLowerChar
  split <;> rfl

/-- Lowercasing preserves the domain-part character class. -/
theorem isDomainChar_pyLowerChar (c : Char) :
    isDomainChar (pyLowerChar c) = isDomainChar c := by
  unfold pyLowerChar
  split <;> rfl

/-! List-level facts about stripping and lowercasing. -/

/-- The head surviving a dropWhile fails the predicate. -/
theorem dropWhile_head_false {p : Char → Bool} :
    ∀ (l : List Char) {x xs}, l.dropWhile p = x :: xs → p x = false := by
  intro l
  induction l with
  | nil => intro x xs h; simp [List.dropWhile] at h
  | cons c t ih =>
    intro x xs h
    rw [List.dropWhile_cons] at h
    by_cases hc : p c = true
    · exact ih (by simpa [hc] using h)
    · have hcf : p c = false := by simpa using hc
      rw [if_neg (by simp [hcf])] at h
      cases h
      exact hcf

/-- dropWhile is the identity on a list whose head fails the
predicate. -/
theorem dropWhile_of_head_false {p : Char → Bool} {x : Char}
    {xs : List Char} (h : p x = false) : (x :: xs).dropWhile p = x :: xs := by
  rw [List.dropWhile_cons, if_neg (by simp [h])]

/-- Removing trailing whitespace yields a prefix of the input. -/
theorem dropTrailingSpaces_prefix (l : List Char) :
    dropTrailingSpaces l <+: l := by
  have h : (l.reverse.dropWhile isPySpace) <:+ l.reverse :=
    List.dropWhile_suffix isPySpace
  have h2 := h.reverse
  simpa [dropTrailingSpaces] using h2

/-- Removing trailing whitespace twice is the same as once. -/
theorem dropTrailingSpaces_idem (l : List Char) :
    dropTrailingSpaces (dropTrailingSpaces l) = dropTrailingSpaces l := by
  simp [dropTrailingSpaces, List.dropWhile_idempotent]

/-- Removing trailing whitespace commutes with mapping a
whitespace-preserving function. -/
theorem dropTrailingSpaces_map_lower (l : List Char) :
    dropTrailingSpaces (l.map pyLowerChar) =
      (dropTrailingSpaces l).map pyLowerChar := by
  have hp : (isPySpace ∘ pyLowerChar) = isPySpace :=
    funext isPySpace_pyLowerChar
  simp [dropTrailingSpaces, ← List.map_reverse, List.dropWhile_map, hp]

/-- Stripping commutes with ASCII lowercasing. -/
theorem stripL_map_lower (l : List Char) :
    stripL (l.map pyLowerChar) = (stripL l).map pyLowerChar := by
  have hp : (isPySpace ∘ pyLowerChar) = isPySpace :=
    funext isPySpace_pyLowerChar
  simp [stripL, List.dropWhile_map, hp, dropTrailingSpaces_map_lower]

/-- Stripping is idempotent. -/
theorem stripL_idem (l : List Char) : stripL (stripL l) = stripL l := by
  unfold stripL
  set a := l.dropWhile isPySpace with ha
  have hdrop : (dropTrailingSpaces a).dropWhile isPySpace =
      dropTrailingSpaces a := by
    rcases hp : dropTrailingSpaces a with _ | ⟨x, xs⟩
    · simp [List.dropWhile]
    · obtain ⟨t, ht⟩ := dropTrailingSpaces_prefix a
      rw [hp] at ht
    -- the head of the stripped list is the head of a, which fails isPySpace
      have hx : isPySpace x = false := by
        refine @dropWhile_head_false isPySpace l x (xs ++ t) ?_
        rw [← ha]
        exact ht.symm
      exact dropWhile_of_head_false hx
    -- strip of the stripped list only removes trailing spaces again
  rw [hdrop, dropTrailingSpaces_idem]

/-- String-level: stripping commutes with lowercasing. -/
theorem pyStrip_pyLower (s : String) :
    pyStrip (pyLower s) = pyLower (pyStrip s) := by
  simp [pyStrip, pyLower, stripL_map_lower]

/-- String-level: stripping is idempotent. -/
theorem pyStrip_idem (s : String) : pyStrip (pyStrip s) = pyStrip s := by
  simp [pyStrip, stripL_idem]

/-- String-level: lowercasing is idempotent. -/
theorem pyLower_idem (s : String) : pyLower (pyLower s) = pyLower s := by
  have h : pyLowerChar ∘ pyLowerChar = pyLowerChar := funext pyLowerChar_idem
  simp [pyLower, List.map_map, h]

/-- The email regex is insensitive to ASCII lowercasing: a matching
string still matches after the case map. -/
theorem emailMatchL_map_lower {cs : List Char} (h : emailMatchL cs = true) :
    emailMatchL (cs.map pyLowerChar) = true := by
  have hLoc : (isLocalChar ∘ pyLowerChar) = isLocalChar :=
    funext isLocalChar_pyLowerChar
  have hAl : (isAsciiAlpha ∘ pyLowerChar) = isAsciiAlpha :=
    funext isAsciiAlpha_pyLowerChar
  have hDom : (isDomainChar ∘ pyLowerChar) = isDomainChar :=
    funext isDomainChar_pyLowerChar
  unfold emailMatchL at h ⊢
  simp only [List.takeWhile_map, hLoc, hAl, hDom, List.length_map,
    ← List.map_drop, ← List.map_reverse, List.head?_map, List.all_map,
    ne_eq, List.map_eq_nil_iff, Bool.and_eq_true, decide_eq_true_eq] at h ⊢
  obtain ⟨⟨⟨⟨⟨h1, h2⟩, h3⟩, h4⟩, h5⟩, h6⟩ := h
  refine ⟨⟨⟨⟨⟨h1, ?_⟩, h3⟩, ?_⟩, h5⟩, h6⟩
  · rw [h2]; rfl
  · rw [h4]; rfl

/-- Projection of a literally built string. -/
theorem data_mk (l : List Char) : (String.mk l).data = l := rfl

/-- The whole anchored match is insensitive to ASCII lowercasing. -/
theorem reMatchEmail_pyLower {s : String} (h : reMatchEmail s = true) :
    reMatchEmail (pyLower s) = true := by
  unfold reMatchEmail at h ⊢
  simp only [pyLower, data_mk]
  rw [Bool.or_eq_true] at h ⊢
  rcases h with h | h
  · exact Or.inl (emailMatchL_map_lower h)
  · right
    split at h
    next c heq =>
      simp only [Bool.and_eq_true, decide_eq_true_eq] at h
      rw [List.getLast?_map, heq, h.1]
      have hdl : (s.data.map pyLowerChar).dropLast =
          s.data.dropLast.map pyLowerChar := (List.map_dropLast _ _).symm
      have hgoal : (decide (('\n' : Char) = '\n') &&
          emailMatchL ((s.data.map pyLowerChar).dropLast)) = true := by
        rw [Bool.and_eq_true, hdl]
        exact ⟨by decide, emailMatchL_map_lower h.2⟩
      exact hgoal
    next heq => exact absurd h (by decide)

/-- Inversion of a successful email-field validation: the output is the
lowercased, stripped input, and the stripped input matches the
regex. -/
theorem emailFieldResult_ok {v out : String}
    (h : emailFieldResult v = .ok out) :
    out = pyLower (pyStrip v) ∧ reMatchEmail (pyStrip v) = true := by
  simp only [emailFieldResult] at h
  split at h
  · cases h
    constructor
    · rw [pyStrip_pyLower, pyStrip_idem]
    · assumption
  · cases h

/-- A normalized email survives re-validation unchanged. -/
theorem emailFieldResult_idem {v out : String}
    (h : emailFieldResult v = .ok out) :
    emailFieldResult out = .ok out := by
  obtain ⟨ho, hm⟩ := emailFieldResult_ok h
  have hso : pyStrip out = out := by
    rw [ho, pyStrip_pyLower, pyStrip_idem]
  have hmo : reMatchEmail out = true := by
    rw [ho]; exact reMatchEmail_pyLower hm
  simp only [emailFieldResult]
  rw [hso, if_pos hmo]
  have hlo : pyLower out = out := by
    rw [ho, pyLower_idem]
  rw [hlo, hso]

/-- Inversion of a successful record validation: the entity's email is
the output of the email field pipeline on the raw email value, and its
LinkedIn URL is the stripped raw value through the URL validator. -/
theorem validateProspect_ok_fields {r : RawRecord} {e : Prospect}
    (h : validateProspect r = .ok e) :
    (∀ v, getStr r "email" = some v → emailFieldResult v = .ok e.email) ∧
    e.linkedin_url = (optStrField r "linkedin_url").map fixLinkedInUrl := by
  unfold validateProspect at h
  split at h
  next fn0 ln0 em0 org0 hfn hln hem horg =>
    split at h
    next em hres =>
      split at h
      · cases h
        refine ⟨?_, rfl⟩
        intro v hv
        rw [hv] at hem
        cases hem
        exact hres
      · cases h
    next hres => cases h
  next => cases h

/-- A record with no email field fails validation. -/
theorem validateProspect_no_email {r : RawRecord}
    (h : getStr r "email" = none) :
    validateProspect r = .error (requiredFieldErrors r) := by
  unfold validateProspect
  split
  next fn0 ln0 em0 org0 hfn hln hem horg =>
    rw [h] at hem
    cases hem
  next => rfl

/-! Facts about the dict model. -/

/-- Reading back through an assignment. -/
theorem lookupKey_setKey (r : RawRecord) (k' k : String) (v : PyVal) :
    lookupKey (setKey r k' v) k =
      if k' = k then some v else lookupKey r k := by
  induction r with
  | nil => simp [setKey, lookupKey]
  | cons hd tl ih =>
    obtain ⟨k0, v0⟩ := hd
    by_cases h0 : k0 = k'
    · simp only [setKey, h0, if_pos, lookupKey]
      by_cases h2 : k' = k <;> simp [h2, lookupKey]
    · by_cases h1 : k0 = k
      · subst h1
        have h2 : k' ≠ k0 := fun hh => h0 hh.symm
        simp [setKey, h0, lookupKey, h2]
      · simp [setKey, h0, lookupKey, h1, ih]

/-- A successful lookup locates an entry of the dict. -/
theorem lookupKey_mem {r : RawRecord} {k : String} {v : PyVal}
    (h : lookupKey r k = some v) : (k, v) ∈ r := by
  induction r with
  | nil => cases h
  | cons hd tl ih =>
    obtain ⟨k0, v0⟩ := hd
    rw [lookupKey] at h
    by_cases h0 : k0 = k
    · rw [if_pos h0] at h
      cases h
      subst h0
      exact List.mem_cons_self _ _
    · rw [if_neg h0] at h
      exact List.mem_cons_of_mem _ (ih h)

/-- The loop's record mutation stores the record's prior value under
the raw-data key. -/
theorem mutateRecord_lookup (r : RawRecord) :
    lookupKey (mutateRecord r) "raw_data" = some (PyVal.dict r) := by
  rw [mutateRecord, lookupKey_setKey, if_pos rfl]

/-- The loop's record mutation leaves every other key unchanged. -/
theorem mutateRecord_getStr (r : RawRecord) {k : String}
    (h : k ≠ "raw_data") : getStr (mutateRecord r) k = getStr r k := by
  rw [getStr, getStr, mutateRecord, lookupKey_setKey,
    if_neg (fun hh => h hh.symm)]

/-- The loop's record mutation changes the record: the assigned value
embeds the whole prior record, so it cannot already be stored there. -/
theorem mutateRecord_ne (r : RawRecord) : mutateRecord r ≠ r := by
  intro h
  have hl : lookupKey r "raw_data" = some (PyVal.dict r) := by
    rw [← mutateRecord_lookup r, h]
  have hmem := lookupKey_mem hl
  have hsz := List.sizeOf_lt_of_mem hmem
  simp only [Prod.mk.sizeOf_spec, PyVal.dict.sizeOf_spec] at hsz
  omega

/-! The processing loop: batch mutation, company deduplication order,
prospect arrival order. -/

/-- The valid entities of a batch, in arrival order (each record is
mutated before validation, as in the loop body). -/
def mutatedValidEntities (raws : List RawRecord) : List Prospect :=
  raws.filterMap (fun r => (validateProspect (mutateRecord r)).toOption)

/-- The deduplication key of an entity: its case-folded,
whitespace-trimmed organization name. -/
def entityKey (e : Prospect) : String := pyStrip (pyLower e.organization_name)

/-- The deduplication key of an emitted company row. -/
def companyKey (c : CompanyRow) : String := pyStrip (pyLower c.name)

/-- First-seen-order deduplication of a key sequence, relative to a set
of keys already seen. -/
def firstSeenAux (seen : List String) : List String → List String
  | [] => []
  | k :: ks =>
    if k ∈ seen then firstSeenAux seen ks
    else k :: firstSeenAux (seen ++ [k]) ks

/-- Unfolding the valid-entity list over a record that validates. -/
theorem mutatedValidEntities_cons_ok {r : RawRecord} {e : Prospect}
    (hv : validateProspect (mutateRecord r) = .ok e) (rs : List RawRecord) :
    mutatedValidEntities (r :: rs) = e :: mutatedValidEntities rs := by
  simp [mutatedValidEntities, List.filterMap_cons, hv, Except.toOption]

/-- Unfolding the valid-entity list over a record that fails. -/
theorem mutatedValidEntities_cons_error {r : RawRecord} {msgs : List String}
    (hv : validateProspect (mutateRecord r) = .error msgs) (rs : List RawRecord) :
    mutatedValidEntities (r :: rs) = mutatedValidEntities rs := by
  simp [mutatedValidEntities, List.filterMap_cons, hv, Except.toOption]

/-- The loop state after a record that fails validation: only the
invalid count moves. -/
theorem processStep_snd_error {now : String} {s : ProcState} {r : RawRecord}
    {msgs : List String} (hv : validateProspect (mutateRecord r) = .error msgs) :
    (processStep now s r).2 =
      { s with res :=
          { s.res with invalid_prospects := s.res.invalid_prospects + 1 } } := by
  simp [processStep, hv]

/-- The loop state after a record that validates: the prospect is
appended with its company id overwritten by this record's fresh company
row id, the company row is appended only when its key is new, and three
fresh ids were drawn. -/
theorem processStep_snd_ok {now : String} {s : ProcState} {r : RawRecord}
    {e : Prospect} (hv : validateProspect (mutateRecord r) = .ok e) :
    (processStep now s r).2 =
      { prospects := s.prospects ++
          [{ (toProspectRow e s.gen now).1 with company_id := s.gen + 2 }]
        companies :=
          if entityKey e ∈ s.seen then s.companies
          else s.companies ++ [(toCompanyRow e (s.gen + 2) now).1]
        seen :=
          if entityKey e ∈ s.seen then s.seen else s.seen ++ [entityKey e]
        res := { s.res with valid_prospects := s.res.valid_prospects + 1 }
        gen := s.gen + 3 } := by
  simp [processStep, hv, toProspectRow, toCompanyRow, entityKey]

/-- The mutated record returned by one loop iteration. -/
theorem processStep_fst (now : String) (s : ProcState) (r : RawRecord) :
    (processStep now s r).1 = mutateRecord r := by
  rcases hv : validateProspect (mutateRecord r) with em | e <;>
    simp [processStep, hv]

/-- The loop hands back the batch with every record mutated in place. -/
theorem processRecords_fst (now : String) :
    ∀ (raws : List RawRecord) (s : ProcState),
      (processRecords now raws s).1 = raws.map mutateRecord := by
  intro raws
  induction raws with
  | nil => intro s; simp [processRecords]
  | cons r rs ih =>
    intro s
    simp [processRecords, processStep_fst, ih]

/-- A company row projected from an entity carries the entity's
deduplication key. -/
theorem companyKey_toCompanyRow (e : Prospect) (g : Nat) (now : String) :
    companyKey (toCompanyRow e g now).1 = entityKey e := rfl

/-- The emitted company keys are the first-seen-order deduplication of
the valid entities' keys. -/
theorem processRecords_companies (now : String) :
    ∀ (raws : List RawRecord) (s : ProcState),
      ((processRecords now raws s).2).companies.map companyKey =
        s.companies.map companyKey ++
          firstSeenAux s.seen ((mutatedValidEntities raws).map entityKey) := by
  intro raws
  induction raws with
  | nil => intro s; simp [processRecords, mutatedValidEntities, firstSeenAux]
  | cons r rs ih =>
    intro s
    rcases hv : validateProspect (mutateRecord r) with em | e
    · rw [mutatedValidEntities_cons_error hv]
      show ((processRecords now rs (processStep now s r).2).2).companies.map
        companyKey = _
      rw [processStep_snd_error hv, ih]
    · rw [mutatedValidEntities_cons_ok hv]
      show ((processRecords now rs (processStep now s r).2).2).companies.map
        companyKey = _
      rw [processStep_snd_ok hv, ih]
      simp only [List.map_cons]
      rw [firstSeenAux]
      by_cases hk : entityKey e ∈ s.seen
      · rw [if_pos hk, if_pos hk, if_pos hk]
      · rw [if_neg hk, if_neg hk, if_neg hk]
        simp [companyKey_toCompanyRow, List.append_assoc]

/-- The order-relevant content of an emitted prospect row. -/
def prospectSig (p : ProspectRow) : String × String × String :=
  (p.first_name, p.last_name, p.email)

/-- The order-relevant content of a validated entity. -/
def entitySig (e : Prospect) : String × String × String :=
  (e.first_name, e.last_name, e.email)

/-- Prospect rows are emitted exactly for the valid records, in arrival
order. -/
theorem processRecords_prospects (now : String) :
    ∀ (raws : List RawRecord) (s : ProcState),
      ((processRecords now raws s).2).prospects.map prospectSig =
        s.prospects.map prospectSig ++
          (mutatedValidEntities raws).map entitySig := by
  intro raws
  induction raws with
  | nil => intro s; simp [processRecords, mutatedValidEntities]
  | cons r rs ih =>
    intro s
    rcases hv : validateProspect (mutateRecord r) with em | e
    · rw [mutatedValidEntities_cons_error hv]
      show ((processRecords now rs (processStep now s r).2).2).prospects.map
        prospectSig = _
      rw [processStep_snd_error hv, ih]
    · rw [mutatedValidEntities_cons_ok hv]
      show ((processRecords now rs (processStep now s r).2).2).prospects.map
        prospectSig = _
      rw [processStep_snd_ok hv, ih]
      simp [prospectSig, entitySig, toProspectRow, List.append_assoc]

/-- Keys produced by the first-seen deduplication were not yet seen. -/
theorem firstSeenAux_not_seen :
    ∀ (ks seen : List String) (x : String),
      x ∈ firstSeenAux seen ks → x ∉ seen := by
  intro ks
  induction ks with
  | nil => intro seen x hx; simp [firstSeenAux] at hx
  | cons k ks ih =>
    intro seen x hx
    rw [firstSeenAux] at hx
    by_cases hk : k ∈ seen
    · rw [if_pos hk] at hx; exact ih seen x hx
    · rw [if_neg hk] at hx
      rcases List.mem_cons.mp hx with h | h
      · subst h; exact hk
      · intro hmem
        exact ih _ x h (List.mem_append_left _ hmem)

/-- The first-seen deduplication never repeats a key. -/
theorem firstSeenAux_nodup :
    ∀ (ks seen : List String), (firstSeenAux seen ks).Nodup := by
  intro ks
  induction ks with
  | nil => intro seen; simp [firstSeenAux]
  | cons k ks ih =>
    intro seen
    rw [firstSeenAux]
    by_cases hk : k ∈ seen
    · rw [if_pos hk]; exact ih seen
    · rw [if_neg hk]
      refine List.nodup_cons.mpr ⟨?_, ih _⟩
      intro hmem
      exact firstSeenAux_not_seen ks _ k hmem
        (List.mem_append_right _ (List.mem_singleton.mpr rfl))

/-! Facts about string parameter markers, for the query builder. -/

/-- A string does start with itself in front of any suffix. -/
theorem pyStartsWith_append_self (a v : String) :
    pyStartsWith (a ++ v) a = true := by
  unfold pyStartsWith
  rw [String.data_append]
  exact List.isPrefixOf_iff_prefix.mpr (List.prefix_append _ _)

/-- A string headed by marker `a` does not start with a marker `p` that
disagrees with `a` on some initial segment within both lengths. -/
theorem pyStartsWith_append_ne {a p : String} (v : String) (k : Nat)
    (hk : k ≤ a.data.length) (hk2 : k ≤ p.data.length)
    (hne : p.data.take k ≠ a.data.take k) :
    pyStartsWith (a ++ v) p = false := by
  unfold pyStartsWith
  rw [String.data_append]
  by_contra hb
  rw [Bool.not_eq_false] at hb
  obtain ⟨t, ht⟩ := List.isPrefixOf_iff_prefix.mp hb
  apply hne
  calc p.data.take k = (p.data ++ t).take k :=
        (List.take_append_of_le_length hk2).symm
    _ = (a.data ++ v.data).take k := by rw [ht]
    _ = a.data.take k := List.take_append_of_le_length hk

/-- Unfolding of the loop over the first record of a batch. -/
theorem processRecords_cons_snd (now : String) (r : RawRecord)
    (rs : List RawRecord) (s : ProcState) :
    (processRecords now (r :: rs) s).2 =
      (processRecords now rs (processStep now s r).2).2 := rfl

/-- The loop never touches the fetched-count, error-list, insert-count
or requested-count fields of the statistics dict. -/
theorem processRecords_res_fields (now : String) :
    ∀ (raws : List RawRecord) (s : ProcState),
      (((processRecords now raws s).2).res.raw_records_fetched =
        s.res.raw_records_fetched) ∧
      (((processRecords now raws s).2).res.errors = s.res.errors) ∧
      (((processRecords now raws s).2).res.prospects_inserted =
        s.res.prospects_inserted) ∧
      (((processRecords now raws s).2).res.companies_inserted =
        s.res.companies_inserted) ∧
      (((processRecords now raws s).2).res.total_requested =
        s.res.total_requested) := by
  intro raws
  induction raws with
  | nil => intro s; exact ⟨rfl, rfl, rfl, rfl, rfl⟩
  | cons r rs ih =>
    intro s
    rcases hv : validateProspect (mutateRecord r) with em | e
    all_goals {
      simp only [processRecords_cons_snd]
      first
      | rw [processStep_snd_error hv]
      | rw [processStep_snd_ok hv]
      exact ih _
    }

/-- The loop counts exactly the valid records as valid and the rest as
invalid. -/
theorem processRecords_counts (now : String) :
    ∀ (raws : List RawRecord) (s : ProcState),
      (((processRecords now raws s).2).res.valid_prospects =
        s.res.valid_prospects + (mutatedValidEntities raws).length) ∧
      (((processRecords now raws s).2).res.invalid_prospects +
          (mutatedValidEntities raws).length =
        s.res.invalid_prospects + raws.length) := by
  intro raws
  induction raws with
  | nil =>
    intro s
    simp [processRecords, mutatedValidEntities]
  | cons r rs ih =>
    intro s
    rcases hv : validateProspect (mutateRecord r) with em | e
    · rw [mutatedValidEntities_cons_error hv]
      simp only [processRecords_cons_snd]
      rw [processStep_snd_error hv]
      obtain ⟨ihv, ihi⟩ := ih ({ s with res :=
        { s.res with invalid_prospects := s.res.invalid_prospects + 1 } })
      dsimp only at ihv ihi ⊢
      rw [List.length_cons]
      exact ⟨ihv, by omega⟩
    · rw [mutatedValidEntities_cons_ok hv]
      simp only [processRecords_cons_snd]
      rw [processStep_snd_ok hv]
      obtain ⟨ihv, ihi⟩ := ih
        ({ prospects := s.prospects ++
            [{ (toProspectRow e s.gen now).1 with company_id := s.gen + 2 }]
           companies := if entityKey e ∈ s.seen then s.companies
             else s.companies ++ [(toCompanyRow e (s.gen + 2) now).1]
           seen := if entityKey e ∈ s.seen then s.seen
             else s.seen ++ [entityKey e]
           res := { s.res with valid_prospects := s.res.valid_prospects + 1 }
           gen := s.gen + 3 })
      dsimp only at ihv ihi ⊢
      rw [List.length_cons, List.length_cons]
      exact ⟨by omega, by omega⟩

/-- When both batch writes succeed, the persist stage of a non-empty
run returns the loop's statistics unchanged in the valid, invalid and
error fields. -/
theorem persistStage_ok_stats
    (appendP : List ProspectRow → Except String Unit)
    (appendC : List CompanyRow → Except String Unit) (st : ProcState)
    (hP : ∀ l, appendP l = .ok ()) (hC : ∀ l, appendC l = .ok ())
    (hraw : st.res.raw_records_fetched ≠ 0) :
    (persistStage appendP appendC st).toOption.map
      (fun R => (R.valid_prospects, R.invalid_prospects, R.errors)) =
      some (st.res.valid_prospects, st.res.invalid_prospects,
        st.res.errors) := by
  simp only [persistStage, hP, hC]
  by_cases hp : st.prospects.isEmpty <;> by_cases hc : st.companies.isEmpty <;>
    simp [hp, hc, hraw, Except.toOption]

/-- A run over a non-empty batch with succeeding collaborators returns
normally with the loop's statistics. -/
theorem runFlow_ok_stats (total : Nat) (t : Targets) (raws : List RawRecord)
    (appendP : List ProspectRow → Except String Unit)
    (appendC : List CompanyRow → Except String Unit)
    (g : Nat) (now : String)
    (hP : ∀ l, appendP l = .ok ()) (hC : ∀ l, appendC l = .ok ())
    (hne : raws ≠ []) :
    (runFlow total t (.ok raws) appendP appendC g now).toOption.map
      (fun R => (R.valid_prospects, R.invalid_prospects, R.errors)) =
      some ((((processRecords now raws (initProc
            { initResults total with raw_records_fetched := raws.length }
            g)).2).res.valid_prospects),
        ((((processRecords now raws (initProc
            { initResults total with raw_records_fetched := raws.length }
            g)).2).res.invalid_prospects),
          (((processRecords now raws (initProc
            { initResults total with raw_records_fetched := raws.length }
            g)).2).res.errors))) := by
  have hraw : (((processRecords now raws (initProc
      { initResults total with raw_records_fetched := raws.length }
      g)).2).res.raw_records_fetched) = raws.length := by
    rw [(processRecords_res_fields now raws _).1]
    rfl
  have hstats := persistStage_ok_stats appendP appendC
    ((processRecords now raws (initProc
      { initResults total with raw_records_fetched := raws.length } g)).2)
    hP hC (by rw [hraw]; simpa using hne)
  simp only [runFlow, runInner]
  rcases hps : persistStage appendP appendC
      ((processRecords now raws (initProc
        { initResults total with raw_records_fetched := raws.length } g)).2)
      with ⟨e, r⟩ | r
  · rw [hps] at hstats
    cases hstats
  · rw [hps] at hstats
    simpa using hstats

/-! The claims. -/

/-- First raw record of the duplicate-organization scenario. -/
def c1rec1 : RawRecord :=
  [("first_name", .str "Alice"), ("last_name", .str "Smith"),
   ("email", .str "alice@acme.com"), ("organization_name", .str "Acme Inc")]

/-- Second raw record of the duplicate-organization scenario: the same
organization name up to case and surrounding whitespace. -/
def c1rec2 : RawRecord :=
  [("first_name", .str "Bob"), ("last_name", .str "Jones"),
   ("email", .str "bob@acme.com"), ("organization_name", .str "  acme inc  ")]

/-- C1: on a run with two valid records whose organization names agree
after case folding and trimming, the loop emits one CompanyRow (id 2 of
the fresh-id supply started at 0) and two ProspectRows, the second of
which carries company id 5: the id of a freshly drawn, never-emitted
company row, not the id of the canonical emitted CompanyRow.  This
evaluates the code at the failing input of the claim: the claim's
required equality with the canonical company id fails for the second
prospect. -/
theorem dedup_company_id_dangling :
    (((processRecords "T" [c1rec1, c1rec2]
        (initProc (initResults 2) 0)).2).res.valid_prospects = 2) ∧
    (((processRecords "T" [c1rec1, c1rec2]
        (initProc (initResults 2) 0)).2).companies.map CompanyRow.id = [2]) ∧
    (((processRecords "T" [c1rec1, c1rec2]
        (initProc (initResults 2) 0)).2).prospects.map ProspectRow.company_id =
      [2, 5]) ∧
    (5 ∉ ((processRecords "T" [c1rec1, c1rec2]
        (initProc (initResults 2) 0)).2).companies.map CompanyRow.id) := by
  decide

/-- The collaborator stubs used by the concrete run scenarios. -/
def appendOkP : List ProspectRow → Except String Unit := fun _ => .ok ()

/-- Succeeding company write. -/
def appendOkC : List CompanyRow → Except String Unit := fun _ => .ok ()

/-- Failing prospect write. -/
def appendFailP : List ProspectRow → Except String Unit :=
  fun _ => .error "write failed"

/-- Failing company write. -/
def appendFailC : List CompanyRow → Except String Unit :=
  fun _ => .error "write failed"

/-- Valid record 1 of the size-5 batch. -/
def c2r1 : RawRecord :=
  [("first_name", .str "A1"), ("last_name", .str "B1"),
   ("email", .str "a1@x1.co"), ("organization_name", .str "Org1")]

/-- Valid record 2 of the size-5 batch. -/
def c2r2 : RawRecord :=
  [("first_name", .str "A2"), ("last_name", .str "B2"),
   ("email", .str "a2@x2.co"), ("organization_name", .str "Org2")]

/-- Record 3 of the size-5 batch: no email field. -/
def c2r3 : RawRecord :=
  [("first_name", .str "A3"), ("last_name", .str "B3"),
   ("organization_name", .str "Org3")]

/-- Valid record 4 of the size-5 batch. -/
def c2r4 : RawRecord :=
  [("first_name", .str "A4"), ("last_name", .str "B4"),
   ("email", .str "a4@x4.co"), ("organization_name", .str "Org4")]

/-- Valid record 5 of the size-5 batch. -/
def c2r5 : RawRecord :=
  [("first_name", .str "A5"), ("last_name", .str "B5"),
   ("email", .str "a5@x5.co"), ("organization_name", .str "Org5")]

/-- C2 counterexample: on a batch of five records whose third has no
email, the run completes with four valid and one invalid prospect, but
the returned error list is empty: a validation failure is only counted
and console-logged, never appended to the error list, so the claimed
single error entry referencing position 3 does not exist. -/
theorem missing_email_error_list_empty :
    runFlow 5 ({} : Targets) (.ok [c2r1, c2r2, c2r3, c2r4, c2r5])
      appendOkP appendOkC 0 "T" =
      .ok { total_requested := 5, raw_records_fetched := 5,
            valid_prospects := 4, invalid_prospects := 1,
            prospects_inserted := 4, companies_inserted := 4,
            errors := [] } ∧
    ((runFlow 5 ({} : Targets) (.ok [c2r1, c2r2, c2r3, c2r4, c2r5])
        appendOkP appendOkC 0 "T").toOption.map
      (fun R => R.errors.length)) = some 0 := by
  constructor
  · rfl
  · rfl

/-- C2 (amended): for every batch of five records in which record 3 is
missing its email field and the other four validate, a run with
succeeding batch writes completes (returns rather than aborting) with
valid_prospects four, invalid_prospects one, and an empty error list:
the validation failure is reported via a console warning referencing
position 3, not via the error list. -/
theorem run_missing_email_stats (t : Targets)
    (r1 r2 r3 r4 r5 : RawRecord) (e1 e2 e4 e5 : Prospect)
    (appendP : List ProspectRow → Except String Unit)
    (appendC : List CompanyRow → Except String Unit)
    (g : Nat) (now : String)
    (h1 : validateProspect (mutateRecord r1) = .ok e1)
    (h2 : validateProspect (mutateRecord r2) = .ok e2)
    (h3 : getStr r3 "email" = none)
    (h4 : validateProspect (mutateRecord r4) = .ok e4)
    (h5 : validateProspect (mutateRecord r5) = .ok e5)
    (hP : ∀ l, appendP l = .ok ())
    (hC : ∀ l, appendC l = .ok ()) :
    (runFlow 5 t (.ok [r1, r2, r3, r4, r5]) appendP appendC g now).toOption.map
      (fun R => (R.valid_prospects, R.invalid_prospects, R.errors)) =
      some (4, 1, ([] : List String)) := by
  have h3' : validateProspect (mutateRecord r3) =
      .error (requiredFieldErrors (mutateRecord r3)) :=
    validateProspect_no_email
      (by rw [mutateRecord_getStr r3 (by decide)]; exact h3)
  rw [runFlow_ok_stats 5 t [r1, r2, r3, r4, r5] appendP appendC g now hP hC
    (by simp)]
  have hmv : mutatedValidEntities [r1, r2, r3, r4, r5] = [e1, e2, e4, e5] := by
    rw [mutatedValidEntities_cons_ok h1, mutatedValidEntities_cons_ok h2,
      mutatedValidEntities_cons_error h3', mutatedValidEntities_cons_ok h4,
      mutatedValidEntities_cons_ok h5]
    rfl
  obtain ⟨hv, hi⟩ := processRecords_counts now [r1, r2, r3, r4, r5]
    (initProc { initResults 5 with
      raw_records_fetched := ([r1, r2, r3, r4, r5] : List RawRecord).length } g)
  have herr := (processRecords_res_fields now [r1, r2, r3, r4, r5]
    (initProc { initResults 5 with
      raw_records_fetched :=
        ([r1, r2, r3, r4, r5] : List RawRecord).length } g)).2.1
  rw [hmv] at hv hi
  dsimp only [initProc, initResults] at hv hi herr ⊢
  simp only [List.length_cons, List.length_nil] at hv hi herr ⊢
  rw [herr]
  simp only [Option.some.injEq, Prod.mk.injEq]
  refine ⟨by omega, by omega, trivial⟩

/-- The validated entity of record 1, for the C2 witness. -/
def c2e1 : Prospect :=
  { first_name := "A1", last_name := "B1", email := "a1@x1.co",
    organization_name := "Org1", title := none, headline := none,
    linkedin_url := none, organization_website_url := none, industry := none,
    estimated_num_employees := none, city := none, state := none,
    country := none, organization_short_description := none,
    organization_seo_description := none, keywords := none,
    organization_linkedin_url := none, organization_founded_year := none,
    organization_annual_revenue_printed := none, raw_data := some c2r1 }

/-- The validated entity of record 2. -/
def c2e2 : Prospect :=
  { c2e1 with
    first_name := "A2"
    last_name := "B2"
    email := "a2@x2.co"
    organization_name := "Org2"
    raw_data := some c2r2 }

/-- The validated entity of record 4. -/
def c2e4 : Prospect :=
  { c2e1 with
    first_name := "A4"
    last_name := "B4"
    email := "a4@x4.co"
    organization_name := "Org4"
    raw_data := some c2r4 }

/-- The validated entity of record 5. -/
def c2e5 : Prospect :=
  { c2e1 with
    first_name := "A5"
    last_name := "B5"
    email := "a5@x5.co"
    organization_name := "Org5"
    raw_data := some c2r5 }

/-- C2 witness: the amended statement instantiated on the concrete
size-5 batch. -/
theorem run_missing_email_stats_witness :
    (runFlow 5 ({} : Targets) (.ok [c2r1, c2r2, c2r3, c2r4, c2r5])
        appendOkP appendOkC 0 "T").toOption.map
      (fun R => (R.valid_prospects, R.invalid_prospects, R.errors)) =
      some (4, 1, ([] : List String)) :=
  run_missing_email_stats ({} : Targets) c2r1 c2r2 c2r3 c2r4 c2r5
    c2e1 c2e2 c2e4 c2e5 appendOkP appendOkC 0 "T"
    rfl rfl rfl rfl rfl (fun _ => rfl) (fun _ => rfl)

/-- The example target criteria of the claim: size and location
present, two job titles, no industry key. -/
def c3targets : Targets :=
  { company_size := some "1-50", industry := none,
    location := some "Germany", job_titles := some ["CEO", "CTO"] }

set_option maxRecDepth 4096 in
/-- C3 counterexample: on criteria with no industry key, the built
query does contain an industry parameter, filled with the default
value Technology, contradicting the claim that an absent criterion is
omitted. -/
theorem absent_industry_gets_default :
    buildApolloSearchUrl c3targets =
      "https://app.apollo.io/#/people?organizationNumEmployeesRanges[]=1-50&qOrganizationKeywordTags[]=Technology&personLocations[]=Germany&personTitles[]=CEO&personTitles[]=CTO" ∧
    "qOrganizationKeywordTags[]=Technology" ∈ urlParams c3targets := by
  decide

/-- The built parameter list always carries one personTitles parameter
per element of the effective job-title list (the present list, or the
default when the key is absent). -/
theorem urlParams_personTitles_count (t : Targets) :
    (urlParams t).countP (fun p => pyStartsWith p "personTitles[]=") =
      (t.job_titles.getD ["CEO", "Founder", "CTO"]).length := by
  simp only [urlParams, List.countP_append]
  have hA : ∀ (m v : String), m = "organizationNumEmployeesRanges[]=" ∨
      m = "qOrganizationKeywordTags[]=" ∨ m = "personLocations[]=" →
      pyStartsWith (m ++ v) "personTitles[]=" = false := by
    intro m v hm
    rcases hm with hm | hm | hm <;> subst hm
    · exact pyStartsWith_append_ne v 7 (by decide) (by decide) (by decide)
    · exact pyStartsWith_append_ne v 7 (by decide) (by decide) (by decide)
    · exact pyStartsWith_append_ne v 7 (by decide) (by decide) (by decide)
  have h1 : (if t.company_size.getD "1-50" ≠ "" then
      ["organizationNumEmployeesRanges[]=" ++ t.company_size.getD "1-50"]
      else []).countP (fun p => pyStartsWith p "personTitles[]=") = 0 := by
    split
    · simp [List.countP_cons, hA _ _ (Or.inl rfl)]
    · rfl
  have h2 : (if t.industry.getD "Technology" ≠ "" then
      ["qOrganizationKeywordTags[]=" ++ t.industry.getD "Technology"]
      else []).countP (fun p => pyStartsWith p "personTitles[]=") = 0 := by
    split
    · simp [List.countP_cons, hA _ _ (Or.inr (Or.inl rfl))]
    · rfl
  have h3 : (if t.location.getD "United States" ≠ "" then
      ["personLocations[]=" ++ t.location.getD "United States"]
      else []).countP (fun p => pyStartsWith p "personTitles[]=") = 0 := by
    split
    · simp [List.countP_cons, hA _ _ (Or.inr (Or.inr rfl))]
    · rfl
  have h4 : (if t.job_titles.getD ["CEO", "Founder", "CTO"] ≠ [] then
      (t.job_titles.getD ["CEO", "Founder", "CTO"]).map
        (fun ti => "personTitles[]=" ++ ti) else []).countP
      (fun p => pyStartsWith p "personTitles[]=") =
      (t.job_titles.getD ["CEO", "Founder", "CTO"]).length := by
    rcases hts2 : t.job_titles.getD ["CEO", "Founder", "CTO"] with _ | ⟨a, l⟩
    · simp
    · rw [if_pos (by simp)]
      rw [List.countP_map]
      rw [List.countP_eq_length.mpr (fun x hx => by
        simpa using pyStartsWith_append_self "personTitles[]=" x)]
  omega

set_option maxRecDepth 4096 in
/-- C3 (amended): query construction emits one separate job-title
parameter per element of a present job-titles list, omits any
criterion whose value is present but empty, and fills an absent
criterion with its default before inclusion (company_size defaults to
1-50, industry to Technology, location to United States, job_titles to
CEO, Founder, CTO); in particular the example criteria yield two
job-title parameters, one location parameter, and one industry
parameter carrying the default. -/
theorem urlParams_amended :
    (∀ (t : Targets) (ts : List String), t.job_titles = some ts →
        (urlParams t).countP (fun p => pyStartsWith p "personTitles[]=") =
          ts.length) ∧
    (∀ t : Targets, t.industry = some "" →
        (urlParams t).countP
          (fun p => pyStartsWith p "qOrganizationKeywordTags[]=") = 0) ∧
    (∀ t : Targets, t.industry = none →
        "qOrganizationKeywordTags[]=Technology" ∈ urlParams t) ∧
    buildApolloSearchUrl c3targets =
      "https://app.apollo.io/#/people?organizationNumEmployeesRanges[]=1-50&qOrganizationKeywordTags[]=Technology&personLocations[]=Germany&personTitles[]=CEO&personTitles[]=CTO" ∧
    (∀ t : Targets, t.company_size = some "" →
        (urlParams t).countP
          (fun p => pyStartsWith p "organizationNumEmployeesRanges[]=") = 0) ∧
    (∀ t : Targets, t.location = some "" →
        (urlParams t).countP
          (fun p => pyStartsWith p "personLocations[]=") = 0) ∧
    (∀ t : Targets, t.company_size = none →
        "organizationNumEmployeesRanges[]=1-50" ∈ urlParams t) ∧
    (∀ t : Targets, t.location = none →
        "personLocations[]=United States" ∈ urlParams t) ∧
    (∀ t : Targets, t.job_titles = none →
        (urlParams t).countP (fun p => pyStartsWith p "personTitles[]=") = 3 ∧
        "personTitles[]=CEO" ∈ urlParams t ∧
        "personTitles[]=Founder" ∈ urlParams t ∧
        "personTitles[]=CTO" ∈ urlParams t) := by
  refine ⟨?_, ?_, ?_, by decide, ?_, ?_, ?_, ?_, ?_⟩
  · intro t ts hts
    have h := urlParams_personTitles_count t
    rw [hts] at h
    simpa using h
  · intro t hind
    simp only [urlParams, hind, Option.getD_some, List.countP_append]
    have hB : ∀ (m v : String), m = "organizationNumEmployeesRanges[]=" ∨
        m = "personLocations[]=" ∨ m = "personTitles[]=" →
        pyStartsWith (m ++ v) "qOrganizationKeywordTags[]=" = false := by
      intro m v hm
      rcases hm with hm | hm | hm <;> subst hm
      · exact pyStartsWith_append_ne v 1 (by decide) (by decide) (by decide)
      · exact pyStartsWith_append_ne v 1 (by decide) (by decide) (by decide)
      · exact pyStartsWith_append_ne v 1 (by decide) (by decide) (by decide)
    have h1 : (if t.company_size.getD "1-50" ≠ "" then
        ["organizationNumEmployeesRanges[]=" ++ t.company_size.getD "1-50"]
        else []).countP
        (fun p => pyStartsWith p "qOrganizationKeywordTags[]=") = 0 := by
      split
      · simp [List.countP_cons, hB _ _ (Or.inl rfl)]
      · rfl
    have h2 : (if ("" : String) ≠ "" then
        ["qOrganizationKeywordTags[]=" ++ ""] else []).countP
        (fun p => pyStartsWith p "qOrganizationKeywordTags[]=") = 0 := by
      rw [if_neg (by simp)]
      rfl
    have h3 : (if t.location.getD "United States" ≠ "" then
        ["personLocations[]=" ++ t.location.getD "United States"]
        else []).countP
        (fun p => pyStartsWith p "qOrganizationKeywordTags[]=") = 0 := by
      split
      · simp [List.countP_cons, hB _ _ (Or.inr (Or.inl rfl))]
      · rfl
    have h4 : (if t.job_titles.getD ["CEO", "Founder", "CTO"] ≠ [] then
        (t.job_titles.getD ["CEO", "Founder", "CTO"]).map
          (fun ti => "personTitles[]=" ++ ti) else []).countP
        (fun p => pyStartsWith p "qOrganizationKeywordTags[]=") = 0 := by
      split
      · rw [List.countP_map]
        refine List.countP_eq_zero.mpr ?_
        intro x hx
        simpa using hB _ x (Or.inr (Or.inr rfl))
      · rfl
    omega
  · intro t hind
    simp only [urlParams, hind, Option.getD_none]
    rw [if_pos (by decide : ("Technology" : String) ≠ "")]
    refine List.mem_append_left _ (List.mem_append_left _
      (List.mem_append_right _ ?_))
    simp
  · intro t hcs
    simp only [urlParams, hcs, Option.getD_some, List.countP_append]
    have hB : ∀ (m v : String), m = "qOrganizationKeywordTags[]=" ∨
        m = "personLocations[]=" ∨ m = "personTitles[]=" →
        pyStartsWith (m ++ v) "organizationNumEmployeesRanges[]=" = false := by
      intro m v hm
      rcases hm with hm | hm | hm <;> subst hm
      · exact pyStartsWith_append_ne v 1 (by decide) (by decide) (by decide)
      · exact pyStartsWith_append_ne v 1 (by decide) (by decide) (by decide)
      · exact pyStartsWith_append_ne v 1 (by decide) (by decide) (by decide)
    have h1 : (if ("" : String) ≠ "" then
        ["organizationNumEmployeesRanges[]=" ++ ""] else []).countP
        (fun p => pyStartsWith p "organizationNumEmployeesRanges[]=") = 0 := by
      rw [if_neg (by simp)]
      rfl
    have h2 : (if t.industry.getD "Technology" ≠ "" then
        ["qOrganizationKeywordTags[]=" ++ t.industry.getD "Technology"]
        else []).countP
        (fun p => pyStartsWith p "organizationNumEmployeesRanges[]=") = 0 := by
      split
      · simp [List.countP_cons, hB _ _ (Or.inl rfl)]
      · rfl
    have h3 : (if t.location.getD "United States" ≠ "" then
        ["personLocations[]=" ++ t.location.getD "United States"]
        else []).countP
        (fun p => pyStartsWith p "organizationNumEmployeesRanges[]=") = 0 := by
      split
      · simp [List.countP_cons, hB _ _ (Or.inr (Or.inl rfl))]
      · rfl
    have h4 : (if t.job_titles.getD ["CEO", "Founder", "CTO"] ≠ [] then
        (t.job_titles.getD ["CEO", "Founder", "CTO"]).map
          (fun ti => "personTitles[]=" ++ ti) else []).countP
        (fun p => pyStartsWith p "organizationNumEmployeesRanges[]=") = 0 := by
      split
      · rw [List.countP_map]
        refine List.countP_eq_zero.mpr ?_
        intro x hx
        simpa using hB _ x (Or.inr (Or.inr rfl))
      · rfl
    omega
  · intro t hloc
    simp only [urlParams, hloc, Option.getD_some, List.countP_append]
    have hB : ∀ (m v : String), m = "organizationNumEmployeesRanges[]=" ∨
        m = "qOrganizationKeywordTags[]=" ∨ m = "personTitles[]=" →
        pyStartsWith (m ++ v) "personLocations[]=" = false := by
      intro m v hm
      rcases hm with hm | hm | hm <;> subst hm
      · exact pyStartsWith_append_ne v 1 (by decide) (by decide) (by decide)
      · exact pyStartsWith_append_ne v 1 (by decide) (by decide) (by decide)
      · exact pyStartsWith_append_ne v 7 (by decide) (by decide) (by decide)
    have h1 : (if t.company_size.getD "1-50" ≠ "" then
        ["organizationNumEmployeesRanges[]=" ++ t.company_size.getD "1-50"]
        else []).countP (fun p => pyStartsWith p "personLocations[]=") = 0 := by
      split
      · simp [List.countP_cons, hB _ _ (Or.inl rfl)]
      · rfl
    have h2 : (if t.industry.getD "Technology" ≠ "" then
        ["qOrganizationKeywordTags[]=" ++ t.industry.getD "Technology"]
        else []).countP (fun p => pyStartsWith p "personLocations[]=") = 0 := by
      split
      · simp [List.countP_cons, hB _ _ (Or.inr (Or.inl rfl))]
      · rfl
    have h3 : (if ("" : String) ≠ "" then
        ["personLocations[]=" ++ ""] else []).countP
        (fun p => pyStartsWith p "personLocations[]=") = 0 := by
      rw [if_neg (by simp)]
      rfl
    have h4 : (if t.job_titles.getD ["CEO", "Founder", "CTO"] ≠ [] then
        (t.job_titles.getD ["CEO", "Founder", "CTO"]).map
          (fun ti => "personTitles[]=" ++ ti) else []).countP
        (fun p => pyStartsWith p "personLocations[]=") = 0 := by
      split
      · rw [List.countP_map]
        refine List.countP_eq_zero.mpr ?_
        intro x hx
        simpa using hB _ x (Or.inr (Or.inr rfl))
      · rfl
    omega
  · intro t hcs
    simp only [urlParams, hcs, Option.getD_none]
    rw [if_pos (by decide : ("1-50" : String) ≠ "")]
    refine List.mem_append_left _ (List.mem_append_left _
      (List.mem_append_left _ ?_))
    simp
  · intro t hloc
    simp only [urlParams, hloc, Option.getD_none]
    rw [if_pos (by decide : ("United States" : String) ≠ "")]
    refine List.mem_append_left _ (List.mem_append_right _ ?_)
    simp
  · intro t hjt
    have hcount := urlParams_personTitles_count t
    rw [hjt] at hcount
    refine ⟨by simpa using hcount, ?_, ?_, ?_⟩
    all_goals {
      simp only [urlParams, hjt, Option.getD_none]
      refine List.mem_append_right _ ?_
      rw [if_pos (by simp : (["CEO", "Founder", "CTO"] : List String) ≠ [])]
      decide
    }

/-- Criteria with a present-but-empty industry, for the C3 witness. -/
def c3emptyind : Targets :=
  { company_size := some "1-50", industry := some "",
    location := some "Germany", job_titles := some ["CEO", "CTO"] }

/-- Criteria with every criterion present but empty. -/
def c3empties : Targets :=
  { company_size := some "", industry := some "",
    location := some "", job_titles := some [] }

/-- C3 witness: the amended statement instantiated on the example
criteria, on criteria with empty values, and on criteria with every
key absent. -/
theorem urlParams_amended_witness :
    (urlParams c3targets).countP
      (fun p => pyStartsWith p "personTitles[]=") = 2 ∧
    (urlParams c3emptyind).countP
      (fun p => pyStartsWith p "qOrganizationKeywordTags[]=") = 0 ∧
    "qOrganizationKeywordTags[]=Technology" ∈ urlParams c3targets ∧
    (urlParams c3empties).countP
      (fun p => pyStartsWith p "organizationNumEmployeesRanges[]=") = 0 ∧
    (urlParams c3empties).countP
      (fun p => pyStartsWith p "personLocations[]=") = 0 ∧
    "organizationNumEmployeesRanges[]=1-50" ∈ urlParams ({} : Targets) ∧
    "personLocations[]=United States" ∈ urlParams ({} : Targets) ∧
    "personTitles[]=Founder" ∈ urlParams ({} : Targets) :=
  ⟨urlParams_amended.1 c3targets ["CEO", "CTO"] rfl,
   urlParams_amended.2.1 c3emptyind rfl,
   urlParams_amended.2.2.1 c3targets rfl,
   urlParams_amended.2.2.2.2.1 c3empties rfl,
   urlParams_amended.2.2.2.2.2.1 c3empties rfl,
   urlParams_amended.2.2.2.2.2.2.1 ({} : Targets) rfl,
   urlParams_amended.2.2.2.2.2.2.2.1 ({} : Targets) rfl,
   (urlParams_amended.2.2.2.2.2.2.2.2 ({} : Targets) rfl).2.2.1⟩

/-- C4: for every run in which a whole-run stage raises, the run
operation appends the error message to the statistics' error list and
re-raises, preserving all counts accumulated before the failure: a
fetch failure surfaces with the freshly initialized statistics; a
prospect-write failure surfaces with the fetched count and the loop's
valid/invalid counts and no inserted counts; a company-write failure
additionally preserves the already-recorded prospect insert count. -/
theorem run_error_recorded (total : Nat) (t : Targets)
    (raws : List RawRecord)
    (appendP : List ProspectRow → Except String Unit)
    (appendC : List CompanyRow → Except String Unit)
    (g : Nat) (now : String) (e : String) :
    (runFlow total t (.error e) appendP appendC g now =
      .error (e, { initResults total with errors := [e] })) ∧
    (let st := (processRecords now raws (initProc
        { initResults total with raw_records_fetched := raws.length } g)).2
     (st.prospects ≠ [] → appendP st.prospects = .error e →
        runFlow total t (.ok raws) appendP appendC g now =
          .error (e, { st.res with errors := st.res.errors ++ [e] })) ∧
     (st.prospects ≠ [] → appendP st.prospects = .ok () →
        st.companies ≠ [] → appendC st.companies = .error e →
        runFlow total t (.ok raws) appendP appendC g now =
          .error (e, { st.res with
            prospects_inserted := st.prospects.length
            errors := st.res.errors ++ [e] }))) := by
  refine ⟨rfl, ?_, ?_⟩
  · intro hne hPf
    have hemp : ((processRecords now raws (initProc
        { initResults total with raw_records_fetched := raws.length }
        g)).2).prospects.isEmpty = false := by
      rcases hp : ((processRecords now raws (initProc
          { initResults total with raw_records_fetched := raws.length }
          g)).2).prospects with _ | ⟨a, l⟩
      · exact absurd hp hne
      · rfl
    simp only [runFlow, runInner, persistStage, hemp, hPf,
      Bool.false_eq_true, if_false]
  · intro hne hPok hcne hCf
    have hemp : ((processRecords now raws (initProc
        { initResults total with raw_records_fetched := raws.length }
        g)).2).prospects.isEmpty = false := by
      rcases hp : ((processRecords now raws (initProc
          { initResults total with raw_records_fetched := raws.length }
          g)).2).prospects with _ | ⟨a, l⟩
      · exact absurd hp hne
      · rfl
    have hcemp : ((processRecords now raws (initProc
        { initResults total with raw_records_fetched := raws.length }
        g)).2).companies.isEmpty = false := by
      rcases hp : ((processRecords now raws (initProc
          { initResults total with raw_records_fetched := raws.length }
          g)).2).companies with _ | ⟨a, l⟩
      · exact absurd hp hcne
      · rfl
    simp only [runFlow, runInner, persistStage, hemp, hcemp, hPok, hCf,
      Bool.false_eq_true, if_false]

/-- C4 witness: the failing-write cases instantiated on a concrete
one-record batch, showing the error appended and the counts
preserved. -/
theorem run_error_recorded_witness :
    (runFlow 1 ({} : Targets) (.ok [c1rec1]) appendFailP appendOkC 0 "T" =
      .error ("write failed",
        { total_requested := 1, raw_records_fetched := 1,
          valid_prospects := 1, invalid_prospects := 0,
          prospects_inserted := 0, companies_inserted := 0,
          errors := ["write failed"] })) ∧
    (runFlow 1 ({} : Targets) (.ok [c1rec1]) appendOkP appendFailC 0 "T" =
      .error ("write failed",
        { total_requested := 1, raw_records_fetched := 1,
          valid_prospects := 1, invalid_prospects := 0,
          prospects_inserted := 1, companies_inserted := 0,
          errors := ["write failed"] })) := by
  constructor
  · have h := (run_error_recorded 1 ({} : Targets) [c1rec1] appendFailP
      appendOkC 0 "T" "write failed").2
    obtain ⟨h1, _⟩ := h
    exact h1 (by decide) rfl
  · have h := (run_error_recorded 1 ({} : Targets) [c1rec1] appendOkP
      appendFailC 0 "T" "write failed").2
    obtain ⟨_, h2⟩ := h
    exact h2 (by decide) rfl (by decide) rfl

/-- C5: in every run, at most one CompanyRow is emitted per distinct
normalized company name (the emitted keys are without duplicates), the
emitted company keys are exactly the first-seen-order deduplication of
the valid records' normalized names, and prospect rows are produced
for the valid records in arrival order. -/
theorem company_dedup_and_order (now : String) (raws : List RawRecord)
    (res : RunResult) (g : Nat) :
    ((((processRecords now raws (initProc res g)).2).companies.map
        companyKey).Nodup) ∧
    (((processRecords now raws (initProc res g)).2).companies.map companyKey =
      firstSeenAux [] ((mutatedValidEntities raws).map entityKey)) ∧
    (((processRecords now raws (initProc res g)).2).prospects.map prospectSig =
      (mutatedValidEntities raws).map entitySig) := by
  refine ⟨?_, ?_, ?_⟩
  · rw [processRecords_companies]
    simp only [initProc, List.map_nil, List.nil_append]
    exact firstSeenAux_nodup _ _
  · rw [processRecords_companies]
    simp [initProc]
  · rw [processRecords_prospects]
    simp [initProc]

/-- C6: for every raw email value whose stripped form matches the
address pattern, the email field pipeline succeeds and returns the
lower-cased, trimmed input, and re-running the pipeline on the
normalized output returns it unchanged; through full record
validation, the entity's email is the lower-cased, trimmed raw value
and is a fixed point of the pipeline. -/
theorem email_normalized_idempotent :
    (∀ v : String, reMatchEmail (pyStrip v) = true →
        emailFieldResult v = .ok (pyLower (pyStrip v)) ∧
        emailFieldResult (pyLower (pyStrip v)) = .ok (pyLower (pyStrip v))) ∧
    (∀ (r : RawRecord) (e : Prospect) (v : String),
        getStr r "email" = some v → validateProspect r = .ok e →
        e.email = pyLower (pyStrip v) ∧
        emailFieldResult e.email = .ok e.email) := by
  constructor
  · intro v h
    have h1 : emailFieldResult v = .ok (pyLower (pyStrip v)) := by
      simp only [emailFieldResult]
      rw [if_pos h, pyStrip_pyLower, pyStrip_idem]
    exact ⟨h1, emailFieldResult_idem h1⟩
  · intro r e v hv hval
    have hres := (validateProspect_ok_fields hval).1 v hv
    exact ⟨(emailFieldResult_ok hres).1, emailFieldResult_idem hres⟩

/-- A record whose email is mixed-case with surrounding whitespace. -/
def c6rec : RawRecord :=
  [("first_name", .str "John"), ("last_name", .str "Doe"),
   ("email", .str "  John.Doe@Example.COM  "),
   ("organization_name", .str "ExCo")]

/-- The entity that record validates to. -/
def c6ent : Prospect :=
  { first_name := "John", last_name := "Doe",
    email := "john.doe@example.com", organization_name := "ExCo",
    title := none, headline := none, linkedin_url := none,
    organization_website_url := none, industry := none,
    estimated_num_employees := none, city := none, state := none,
    country := none, organization_short_description := none,
    organization_seo_description := none, keywords := none,
    organization_linkedin_url := none, organization_founded_year := none,
    organization_annual_revenue_printed := none, raw_data := none }

/-- C6 witness: the normalization statement instantiated on a concrete
mixed-case, whitespace-surrounded email. -/
theorem email_normalized_idempotent_witness :
    c6ent.email = pyLower (pyStrip "  John.Doe@Example.COM  ") ∧
    emailFieldResult "  John.Doe@Example.COM  " =
      .ok (pyLower (pyStrip "  John.Doe@Example.COM  ")) :=
  ⟨(email_normalized_idempotent.2 c6rec c6ent "  John.Doe@Example.COM  "
      rfl rfl).1,
   (email_normalized_idempotent.1 "  John.Doe@Example.COM  " (by decide)).1⟩

/-- A valid record carrying an empty linkedin_url value. -/
def c7emptyrec : RawRecord :=
  [("first_name", .str "Eve"), ("last_name", .str "Li"),
   ("email", .str "eve@e.co"), ("organization_name", .str "ECo"),
   ("linkedin_url", .str "")]

/-- C7 counterexample: a record with an empty linkedin_url validates to
an entity whose linkedin_url is present (the empty string) yet begins
with neither scheme, so the claimed invariant for every present value
fails. -/
theorem linkedin_empty_no_scheme :
    ((validateProspect c7emptyrec).toOption.bind Prospect.linkedin_url =
      some "") ∧
    pyStartsWith "" "http://" = false ∧ pyStartsWith "" "https://" = false := by
  decide

/-- C7 (amended): a scheme-less, non-empty linkedin_url is prefixed
with https (so a validated entity's linkedin_url, when present and
non-empty, begins with a scheme), a url already carrying https is left
unchanged, and the coercion is idempotent. -/
theorem linkedin_url_scheme_amended :
    (∀ (r : RawRecord) (u : String),
        (validateProspect r).toOption.bind Prospect.linkedin_url = some u →
        u ≠ "" →
        (pyStartsWith u "http://" || pyStartsWith u "https://") = true) ∧
    fixLinkedInUrl "linkedin.com/in/x" = "https://linkedin.com/in/x" ∧
    (∀ v : String, fixLinkedInUrl (fixLinkedInUrl v) = fixLinkedInUrl v) := by
  refine ⟨?_, by decide, ?_⟩
  · intro r u h hne
    rcases hval : validateProspect r with m | e
    · rw [hval] at h; cases h
    · rw [hval] at h
      have h2 : e.linkedin_url = some u := h
      have hfields := (validateProspect_ok_fields hval).2
      rw [hfields] at h2
      rcases hopt : optStrField r "linkedin_url" with _ | s0
      · rw [hopt] at h2; cases h2
      · rw [hopt] at h2
        have h3 : fixLinkedInUrl s0 = u := by
          cases h2; rfl
        subst h3
        rw [fixLinkedInUrl]
        by_cases hc : (s0 ≠ "" ∧ pyStartsWith s0 "http://" = false ∧
            pyStartsWith s0 "https://" = false)
        · rw [if_pos hc]
          rw [pyStartsWith_append_self]
          simp
        · rw [if_neg hc]
          rw [fixLinkedInUrl, if_neg hc] at hne
          push_neg at hc
          rcases hc2 : pyStartsWith s0 "http://" with _ | _
          · simp [Bool.ne_false_iff.mp (hc hne hc2)]
          · simp
  · intro v
    by_cases h : (v ≠ "" ∧ pyStartsWith v "http://" = false ∧
        pyStartsWith v "https://" = false)
    · have h1 : fixLinkedInUrl v = "https://" ++ v := by
        rw [fixLinkedInUrl, if_pos h]
      rw [h1, fixLinkedInUrl, if_neg]
      intro hc
      rw [pyStartsWith_append_self] at hc
      exact absurd hc.2.2 (by simp)
    · have h1 : fixLinkedInUrl v = v := by rw [fixLinkedInUrl, if_neg h]
      rw [h1, h1]

/-- A valid record with a scheme-less linkedin_url. -/
def c7okrec : RawRecord :=
  [("first_name", .str "Eve"), ("last_name", .str "Li"),
   ("email", .str "eve@e.co"), ("organization_name", .str "ECo"),
   ("linkedin_url", .str "linkedin.com/in/x")]

/-- C7 witness: the amended statement instantiated on a concrete
scheme-less url. -/
theorem linkedin_url_scheme_amended_witness :
    (pyStartsWith "https://linkedin.com/in/x" "http://" ||
      pyStartsWith "https://linkedin.com/in/x" "https://") = true ∧
    fixLinkedInUrl (fixLinkedInUrl "linkedin.com/in/x") =
      fixLinkedInUrl "linkedin.com/in/x" :=
  ⟨linkedin_url_scheme_amended.1 c7okrec "https://linkedin.com/in/x"
      (by decide) (by decide),
   linkedin_url_scheme_amended.2.2 "linkedin.com/in/x"⟩

/-- Modelled from the spec words, for comparison with the code: the
domain is the url with its leading scheme stripped, its leading
www-dot stripped, and trailing slashes removed. -/
def specCompanyDomainOfUrl (u : String) : String :=
  let u1 := if pyStartsWith u "http://" then u.drop 7
    else if pyStartsWith u "https://" then u.drop 8 else u
  let u2 := if pyStartsWith u1 "www." then u1.drop 4 else u1
  pyRstripSlash u2

/-- An entity whose website url contains www-dot away from the front
as well. -/
def c8badent : Prospect :=
  { first_name := "Ann", last_name := "Lee", email := "ann@x.co",
    organization_name := "XCo", title := none, headline := none,
    linkedin_url := none,
    organization_website_url := some "http://www.a.www.b/",
    industry := none, estimated_num_employees := none, city := none,
    state := none, country := none, organization_short_description := none,
    organization_seo_description := none, keywords := none,
    organization_linkedin_url := none, organization_founded_year := none,
    organization_annual_revenue_printed := none, raw_data := none }

/-- C8 counterexample: the code removes every occurrence of www-dot,
not only a prefix, so on the url http colon www.a.www.b slash the
derived domain differs from the claimed strip-the-prefix result. -/
theorem companyDomain_not_spec_shape :
    companyDomain c8badent = some "a.b" ∧
    specCompanyDomainOfUrl "http://www.a.www.b/" = "a.www.b" ∧
    companyDomain c8badent ≠
      some (specCompanyDomainOfUrl "http://www.a.www.b/") := by
  decide

/-- C8 (amended): for every validated entity with a non-empty website
url, the derived domain deletes every occurrence of the two scheme
markers and of www-dot and strips all trailing slashes; in particular
https colon www.example.com slash normalizes to example.com. -/
theorem companyDomain_replace_chain :
    (∀ (e : Prospect) (u : String),
        e.organization_website_url = some u → u ≠ "" →
        companyDomain e = some (pyRstripSlash (pyReplace (pyReplace
          (pyReplace u "http://" "") "https://" "") "www." ""))) ∧
    (∀ e : Prospect,
        e.organization_website_url = some "https://www.example.com/" →
        companyDomain e = some "example.com") := by
  constructor
  · intro e u h hne
    simp only [companyDomain, h]
    rw [if_pos hne]
  · intro e h
    simp only [companyDomain, h]
    rw [if_pos (by decide : ("https://www.example.com/" : String) ≠ "")]
    decide

/-- An entity carrying the claim's example website url. -/
def c8okent : Prospect :=
  { c8badent with organization_website_url := some "https://www.example.com/" }

/-- C8 witness: the amended statement instantiated on the example
url. -/
theorem companyDomain_replace_chain_witness :
    companyDomain c8okent = some "example.com" :=
  companyDomain_replace_chain.2 c8okent rfl

/-- C9: for every run in which the fetch succeeds with an empty record
sequence, the run operation raises a ZeroDivisionError from the
success summary (which divides by raw_records_fetched, zero here)
instead of returning a statistics record with all counts zero. -/
theorem run_empty_fetch_raises (total : Nat) (t : Targets)
    (appendP : List ProspectRow → Except String Unit)
    (appendC : List CompanyRow → Except String Unit) (g : Nat) (now : String) :
    runFlow total t (.ok []) appendP appendC g now =
      .error (zeroDivMsg, { initResults total with errors := [zeroDivMsg] }) :=
  rfl

/-- C10: the processing loop hands back the caller-visible batch with
every record mutated in place, storing under the raw-data key a copy
of the record itself; the mutation genuinely changes every record, so
a run never leaves a non-empty input batch unchanged. -/
theorem batch_mutated_in_place :
    (∀ (now : String) (raws : List RawRecord) (s : ProcState),
        (processRecords now raws s).1 = raws.map mutateRecord) ∧
    (∀ r : RawRecord,
        lookupKey (mutateRecord r) "raw_data" = some (PyVal.dict r)) ∧
    (∀ r : RawRecord, mutateRecord r ≠ r) ∧
    (∀ (now : String) (raws : List RawRecord) (s : ProcState),
        raws ≠ [] → (processRecords now raws s).1 ≠ raws) := by
  refine ⟨processRecords_fst, mutateRecord_lookup, mutateRecord_ne, ?_⟩
  intro now raws s hne
  rw [processRecords_fst]
  rcases raws with _ | ⟨r, rs⟩
  · exact absurd rfl hne
  · intro heq
    rw [List.map_cons] at heq
    exact mutateRecord_ne r (List.cons.inj heq).1

/-- A one-record batch for the C10 witness. -/
def c10rec : RawRecord := [("first_name", .str "Alice")]

/-- C10 witness: a concrete non-empty batch is not returned
unchanged. -/
theorem batch_mutated_in_place_witness :
    (processRecords "T" [c10rec] (initProc (initResults 1) 0)).1 ≠ [c10rec] :=
  batch_mutated_in_place.2.2.2 "T" [c10rec] (initProc (initResults 1) 0)
    (List.cons_ne_nil _ _)
